import Mathlib

/-
  Verification development for the prizewolf scraping engine.

  This file embeds the final revision of src/app/api/scrape/route.ts
  (the second document in that file, route lines 308-782), the link
  discovery and orchestrator loop of its POST handler, and the results
  page field read (src/unnamed/part_004, line 158).

  Modelling conventions:
  - JS numbers produced by toInt are nonnegative integers, modelled as Nat.
  - JS floating point prices are modelled as rationals; NaN is modelled
    as the none case of NumJS.
  - null and undefined are both modelled as Option.none.
  - Page text (cheerio body text) is modelled as List Char; the fixed
    regular expressions of the extractors are implemented as explicit
    scanners over that text, with JS word boundary and case-insensitive
    semantics.
  - Stateful orchestration is modelled as explicit state passing; the
    network, the DOM and the database are abstracted as function-valued
    inputs.
-/

namespace PW

/-- JS word character class, backslash-w of a regex: letters, digits, underscore. -/
def isWordC (c : Char) : Bool := c.isAlphanum || c = '_'

/-- Word test on an optional character; absent counts as non-word. -/
def isWordOptC : Option Char → Bool
  | none => false
  | some c => isWordC c

/-- Character class of the capture groups: digits and commas. -/
def isDC (c : Char) : Bool := c.isDigit || c = ','

/-- Case-insensitive literal match at the head of the text; returns the rest. -/
def litCI : List Char → List Char → Option (List Char)
  | [], r => some r
  | _ :: _, [] => none
  | c :: cs, x :: xs => if x.toLower = c.toLower then litCI cs xs else none

/-- Skip whitespace, the backslash-s-star of the source regexes. -/
def skipWs (l : List Char) : List Char := l.dropWhile Char.isWhitespace

/-- Decimal digits to a natural number, accumulator form. -/
def natDigitsGo (acc : Nat) : List Char → Nat
  | [] => acc
  | c :: cs => natDigitsGo (acc * 10 + (c.toNat - 48)) cs

/-- Value of a list of decimal digits. -/
def natOfDigits (l : List Char) : Nat := natDigitsGo 0 l

/-- Embeds toInt of route.ts lines 380-384: strip every non-digit character,
then parse as an integer; an empty or absent input yields null. -/
def toIntL : Option (List Char) → Option Nat
  | none => none
  | some s =>
    let d := s.filter Char.isDigit
    if d.isEmpty then none else some (natOfDigits d)

/-- Capture groups of one regex match: group 1 and group 2. -/
abbrev Caps := Option (List Char) × Option (List Char)

/-- A compiled pattern: first match of the regex in the given text. -/
abbrev Pat := List Char → Option Caps

/-- Trailing word-boundary backtracking for a capture of digits and commas
followed by a word boundary: longest nonempty prefix (given reversed) whose
last character and following character differ in word-ness. -/
def cutRev : List Char → Option Char → Option (List Char)
  | [], _ => none
  | c :: rest, nx => if isWordC c != isWordOptC nx then some (c :: rest) else cutRev rest (some c)

/-- Greedy capture of digits and commas whose end satisfies a word boundary,
as in the regex fragment capturing digits and commas followed by backslash-b. -/
def capTrailWB (l : List Char) : Option (List Char) :=
  let m := l.takeWhile isDC
  let r := l.dropWhile isDC
  match cutRev m.reverse r.head? with
  | some revc => some revc.reverse
  | none => none

/-- Scan the text left to right for the first position where the matcher
succeeds; when wb is true the position must additionally satisfy a JS word
boundary against the preceding character. -/
def goSearch (wb : Bool) (p : List Char → Option Caps) : Option Char → List Char → Option Caps
  | _, [] => none
  | prev, c :: rest =>
    if !wb || (isWordC c != isWordOptC prev) then
      match p (c :: rest) with
      | some r => some r
      | none => goSearch wb p (some c) rest
    else goSearch wb p (some c) rest

/-- First-match regex search over a whole text. -/
def searchPat (wb : Bool) (p : List Char → Option Caps) : Pat :=
  fun text => goSearch wb p none text

/-- Characters of a string literal. -/
def strL (s : String) : List Char := s.toList

/-- Matcher for the default total pattern: the phrase Number of Tickets,
whitespace, then a captured run of digits and commas (route.ts line 493). -/
def atNumberOfTickets (l : List Char) : Option Caps :=
  match litCI (strL ("number of tickets")) l with
  | none => none
  | some r1 =>
    let r2 := skipWs r1
    let c := r2.takeWhile isDC
    if c.isEmpty then none else some (some c, none)

/-- Matcher for the default total pattern: Max Tickets then a captured
count (route.ts line 494). -/
def atMaxTickets (l : List Char) : Option Caps :=
  match litCI (strL ("max tickets")) l with
  | none => none
  | some r1 =>
    let r2 := skipWs r1
    let c := r2.takeWhile isDC
    if c.isEmpty then none else some (some c, none)

/-- Matcher for the default total pattern: Maximum Tickets then a captured
count (route.ts line 495). -/
def atMaximumTickets (l : List Char) : Option Caps :=
  match litCI (strL ("maximum tickets")) l with
  | none => none
  | some r1 =>
    let r2 := skipWs r1
    let c := r2.takeWhile isDC
    if c.isEmpty then none else some (some c, none)

/-- Matcher for the default total pattern capturing sold and total at once:
Tickets Available, count, slash, count (route.ts line 496). -/
def atTicketsAvail (l : List Char) : Option Caps :=
  match litCI (strL ("tickets available")) l with
  | none => none
  | some r1 =>
    let r2 := skipWs r1
    let c1 := r2.takeWhile isDC
    if c1.isEmpty then none
    else
      let r3 := skipWs (r2.dropWhile isDC)
      match litCI (strL ("/")) r3 with
      | none => none
      | some r4 =>
        let r5 := skipWs r4
        let c2 := r5.takeWhile isDC
        if c2.isEmpty then none else some (some c1, some c2)

/-- Matcher for the default sold pattern: word boundary, Sold, optional
whitespace, colon, captured count ending at a word boundary
(route.ts line 500). -/
def atSoldColonB (l : List Char) : Option Caps :=
  match litCI (strL ("sold")) l with
  | none => none
  | some r1 =>
    let r2 := skipWs r1
    match litCI (strL (":")) r2 with
    | none => none
    | some r3 =>
      let r4 := skipWs r3
      match capTrailWB r4 with
      | none => none
      | some c => some (some c, none)

/-- Matcher for the default sold pattern: word boundary, captured count,
whitespace, the word sold, word boundary (route.ts line 501). -/
def atNSoldB (l : List Char) : Option Caps :=
  let c := l.takeWhile isDC
  if c.isEmpty then none
  else
    let r1 := skipWs (l.dropWhile isDC)
    match litCI (strL ("sold")) r1 with
    | none => none
    | some r2 => if isWordOptC r2.head? then none else some (some c, none)

/-- Matcher of the Rev Comps maximum phrase: word boundary, PRIZE HAS A MAX
OF, captured count, TICKETS, word boundary (route.ts line 495 of the final
revision, the extractTotalsRevComps maxPhrase regex). -/
def atRevMax (l : List Char) : Option Caps :=
  match litCI (strL ("prize has a max of")) l with
  | none => none
  | some r1 =>
    let r2 := skipWs r1
    let c := r2.takeWhile isDC
    if c.isEmpty then none
    else
      let r3 := skipWs (r2.dropWhile isDC)
      match litCI (strL ("tickets")) r3 with
      | none => none
      | some r4 => if isWordOptC r4.head? then none else some (some c, none)

/-- Matcher of the Rev Comps sold phrase: word boundary, SOLD colon,
whitespace, captured count (extractTotalsRevComps). -/
def atRevSold (l : List Char) : Option Caps :=
  match litCI (strL ("sold:")) l with
  | none => none
  | some r1 =>
    let r2 := skipWs r1
    let c := r2.takeWhile isDC
    if c.isEmpty then none else some (some c, none)

/-- Matcher of the Rev Comps remaining phrase: word boundary, REMAINING
colon, whitespace, captured count (extractTotalsRevComps). -/
def atRevRem (l : List Char) : Option Caps :=
  match litCI (strL ("remaining:")) l with
  | none => none
  | some r1 =>
    let r2 := skipWs r1
    let c := r2.takeWhile isDC
    if c.isEmpty then none else some (some c, none)

/-- The built-in total pattern list of extractTotalsGeneric
(route.ts lines 492-497), used when the rule document supplies none. -/
def defTotalPats : List Pat :=
  [searchPat false atNumberOfTickets, searchPat false atMaxTickets,
   searchPat false atMaximumTickets, searchPat false atTicketsAvail]

/-- The built-in sold pattern list of extractTotalsGeneric
(route.ts lines 499-502). -/
def defSoldPats : List Pat :=
  [searchPat true atSoldColonB, searchPat true atNSoldB]

/-- Totals as returned by the extractors: total and sold tickets. -/
structure Totals where
  total : Option Nat
  sold : Option Nat
deriving DecidableEq, Repr

/-- The total loop of extractTotalsGeneric (route.ts lines 507-514): first
matching pattern wins; the total comes from group 2 when present, else
group 1; a truthy group 2 also yields sold from group 1. -/
def totalLoopG : List Pat → List Char → Option Nat × Option Nat
  | [], _ => (none, none)
  | p :: ps, text =>
    match p text with
    | some (g1, g2) =>
      let t := toIntL (match g2 with | some x => some x | none => g1)
      let s := match g2 with
        | some x => if x.isEmpty then none else toIntL g1
        | none => none
      (t, s)
    | none => totalLoopG ps text

/-- The sold loop of extractTotalsGeneric (route.ts lines 516-524): first
matching pattern wins and sold comes from group 1. -/
def soldLoopG : List Pat → List Char → Option Nat
  | [], _ => none
  | p :: ps, text =>
    match p text with
    | some (g1, _) => toIntL g1
    | none => soldLoopG ps text

/-- The raw extracted pair of extractTotalsGeneric before its consistency
check: the total loop, then the sold loop when sold is still null. -/
def rawTotals (tp sp : List Pat) (text : List Char) : Option Nat × Option Nat :=
  let r := totalLoopG tp text
  let s := match r.2 with | some v => some v | none => soldLoopG sp text
  (r.1, s)

/-- Embeds extractTotalsGeneric (route.ts lines 489-528): pattern loops,
then the consistency check discarding sold when it exceeds total. -/
def extractTotalsGeneric (tp sp : List Pat) (text : List Char) : Totals :=
  match rawTotals tp sp text with
  | (some t, some s) => if t < s then ⟨some t, none⟩ else ⟨some t, some s⟩
  | (t, s) => ⟨t, s⟩

/-- Number read by the Rev Comps maximum phrase regex. -/
def revMaxNum (text : List Char) : Option Nat :=
  toIntL ((searchPat true atRevMax text).bind (fun c => c.1))

/-- Number read by the Rev Comps sold regex. -/
def revSoldNum (text : List Char) : Option Nat :=
  toIntL ((searchPat true atRevSold text).bind (fun c => c.1))

/-- Number read by the Rev Comps remaining regex. -/
def revRemNum (text : List Char) : Option Nat :=
  toIntL ((searchPat true atRevRem text).bind (fun c => c.1))

/-- Embeds extractTotalsRevComps (route.ts lines 492-509 of the final
revision): explicit MAX, SOLD and REMAINING phrases; total derived as
sold plus remaining when absent; sold discarded when above total; generic
fallback (with the rules fallback pattern lists) when total is still
absent, which also fills a null sold from the generic result. -/
def extractTotalsRevComps (fbT fbS : List Pat) (text : List Char) : Totals :=
  let sold0 := revSoldNum text
  let rem := revRemNum text
  let total0 := revMaxNum text
  let total1 := match total0, sold0, rem with
    | none, some s, some r => some (s + r)
    | t, _, _ => t
  let sold1 := match total1, sold0 with
    | some t, some s => if t < s then none else some s
    | _, s => s
  match total1 with
  | some t => ⟨some t, sold1⟩
  | none =>
    let g := extractTotalsGeneric fbT fbS text
    ⟨g.total, match sold1 with | none => g.sold | some s => some s⟩

/-- Embeds computeRemaining (route.ts lines 386-390): null unless both
total and sold are known; the difference when nonnegative, else null. -/
def computeRemaining (total sold : Option Nat) : Option Nat :=
  match total, sold with
  | some t, some s =>
    let r : Int := (t : Int) - (s : Int)
    if 0 ≤ r then some r.toNat else none
  | _, _ => none

/-- A JS number or NaN: the none case models NaN. -/
abbrev NumJS := Option ℚ

/-- JSON values, as produced by parsing the ld json script blocks.
Floating point numbers are modelled as rationals; objects carry their
fields with duplicate keys already resolved by the parse. -/
inductive Json where
  | null
  | bool (b : Bool)
  | num (q : ℚ)
  | str (s : String)
  | arr (xs : List Json)
  | obj (fs : List (String × Json))

/-- Property access on a JSON value: field of an object, else undefined. -/
def getField : Json → String → Option Json
  | Json.obj fs, k => lookupF fs k
  | _, _ => none
where lookupF : List (String × Json) → String → Option Json
  | [], _ => none
  | (k2, v) :: rest, k => if k2 = k then some v else lookupF rest k

/-- JS truthiness of a JSON value: null, false, zero and the empty string
are falsy; arrays and objects are always truthy. -/
def jsTruthy : Json → Bool
  | Json.null => false
  | Json.bool b => b
  | Json.num q => q != 0
  | Json.str s => !s.isEmpty
  | Json.arr _ => true
  | Json.obj _ => true

/-- Number conversion of a string that was stripped to digits and dots,
with JS Number semantics: empty is 0, at most one dot, a lone dot or two
dots are NaN. -/
def jsNumber (s : String) : NumJS :=
  let l := s.toList
  if l.all (fun c => c.isDigit || c = '.') then
    let dots := (l.filter (fun c => c = '.')).length
    if dots = 0 then
      some ((natOfDigits l : ℚ))
    else if dots = 1 then
      let ip := l.takeWhile (fun c => c ≠ '.')
      let fp := (l.dropWhile (fun c => c ≠ '.')).drop 1
      if ip.isEmpty ∧ fp.isEmpty then none
      else some ((natOfDigits ip : ℚ) + (natOfDigits fp : ℚ) / (10 : ℚ) ^ fp.length)
    else none
  else none

/-- Strip every character that is not a digit or a dot, the replace call
in the price conversion of readJsonLdProduct (route.ts line 410). -/
def stripNonDigitDot (s : String) : String :=
  String.mk (s.toList.filter (fun c => c.isDigit || c = '.'))

/-- The price conversion of readJsonLdProduct: Number of String of the
price value with non-digit non-dot characters stripped. For string prices
this is exact; for numeric prices the String then strip round trip is
modelled as the absolute value, which is exact for every finite, plainly
rendered JS number; booleans and objects strip to the empty string and
null never reaches this point (the truthiness guard), all giving 0 exactly;
the array case shares that approximation. -/
def jsNumOfJson : Json → NumJS
  | Json.str s => jsNumber (stripNonDigitDot s)
  | Json.num q => some (if q < 0 then -q else q)
  | _ => some 0

/-- One graph node of readJsonLdProduct (route.ts lines 404-414): when the
type list contains Product, read the first offer, its price when truthy,
and the name when a string; return them when the name is truthy or the
price is non-null. -/
def ldFromItem (g : Json) : Option (Option String × Option NumJS) :=
  let typeArr : List Json := match getField g ("@type") with
    | some v => if jsTruthy v then (match v with | Json.arr xs => xs | _ => [v]) else []
    | none => []
  if typeArr.any (fun t => match t with | Json.str s => s = "Product" | _ => false) then
    let offers : Option Json := match getField g ("offers") with
      | some (Json.arr xs) => xs.head?
      | o => o
    let priceJ : Option Json := offers.bind (fun o => getField o ("price"))
    let price : Option NumJS := match priceJ with
      | some pv => if jsTruthy pv then some (jsNumOfJson pv) else none
      | none => none
    let name : Option String := match getField g ("name") with
      | some (Json.str s) => some s.trim
      | _ => none
    let nameTruthy := match name with | some s => !s.isEmpty | none => false
    if nameTruthy || price.isSome then some (name, price) else none
  else none

/-- Graph loop of readJsonLdProduct: first node yielding a result wins. -/
def ldFromGraph : List Json → Option (Option String × Option NumJS)
  | [] => none
  | g :: rest =>
    match ldFromItem g with
    | some r => some r
    | none => ldFromGraph rest

/-- Node loop of readJsonLdProduct: the graph field when it is an array,
else the node itself. -/
def ldFromNodes : List Json → Option (Option String × Option NumJS)
  | [] => none
  | node :: rest =>
    let graph : List Json := match getField node ("@graph") with
      | some (Json.arr xs) => xs
      | _ => [node]
    match ldFromGraph graph with
    | some r => some r
    | none => ldFromNodes rest

/-- Embeds readJsonLdProduct (route.ts lines 393-421): iterate the parsed
ld json blocks (a parse failure, the none case, is skipped as in the
try catch), wrap a non-array block in a singleton, and return the first
Product name and price found; otherwise both stay absent. -/
def readJsonLdProduct : List (Option Json) → Option String × Option NumJS
  | [] => (none, none)
  | none :: rest => readJsonLdProduct rest
  | some data :: rest =>
    let nodes := match data with | Json.arr xs => xs | d => [d]
    match ldFromNodes nodes with
    | some r => r
    | none => readJsonLdProduct rest

/-- JS truthiness of a nullable number: null, NaN and 0 are falsy. -/
def truthyN : Option NumJS → Bool
  | some (some q) => q != 0
  | _ => false

/-- The JS or operator on nullable numbers. -/
def jsOrN (a b : Option NumJS) : Option NumJS := if truthyN a then a else b

/-- Inject a null-or-finite number into the nullable NaN-aware type. -/
def injQ (p : Option ℚ) : Option NumJS := p.map some

/-- Embeds the entry fee chain of buildParser (route.ts lines 561-567):
the ld product price when non-null, then by JS or the parsePrice result
and the four selector based fallbacks, each abstracted as an input since
they read the DOM. -/
def entryFeeChain (ldp : Option NumJS) (pp wc1 wc2 p3 p4 : Option ℚ) : Option NumJS :=
  jsOrN (match ldp with | some v => some v | none => none)
    (jsOrN (injQ pp) (jsOrN (injQ wc1) (jsOrN (injQ wc2) (jsOrN (injQ p3) (injQ p4)))))

/-- Entry fee of a detail page: the structured price read from its ld json
blocks fed through the fee chain of buildParser. -/
def feeOf (blocks : List (Option Json)) (pp wc1 wc2 p3 p4 : Option ℚ) : Option NumJS :=
  entryFeeChain (readJsonLdProduct blocks).2 pp wc1 wc2 p3 p4

/-- First-occurrence deduplication, the iteration order of a JS Set built
from an array. -/
def dedupFirstGo (seen : List String) : List String → List String
  | [] => []
  | x :: xs => if x ∈ seen then dedupFirstGo seen xs else x :: dedupFirstGo (x :: seen) xs

/-- Deduplicate keeping first occurrences, as Array.from of new Set. -/
def dedupFirst (l : List String) : List String := dedupFirstGo [] l

/-- The Boolean filter on anchor href values: undefined and the empty
string are dropped. -/
def truthyHref : Option String → Option String
  | some s => if s.isEmpty then none else some s
  | none => none

/-- Embeds the link discovery of the POST handler (route.ts lines
667-675): anchor href values (undefined and empty filtered out by the
Boolean filter), resolved to absolute URLs (the URL constructor is
abstracted as the resolve input), deduplicated via a Set, and truncated
to the first 60. No allow or deny filtering is applied. -/
def discoverLinks (resolve : String → String) (hrefs : List (Option String)) : List String :=
  (dedupFirst ((hrefs.filterMap truthyHref).map resolve)).take 60

/-- Fields of a parsed detail page that do not depend on the URL or site:
the output of buildParser minus url and site name. -/
structure ParsedCore where
  prize : String
  entry_fee : Option ℚ
  total_tickets : Option Nat
  tickets_sold : Option Nat
deriving DecidableEq, Repr

/-- A record as returned to the caller (the ApiRow of route.ts lines
321-331, without the timestamp, which is wall clock dependent). -/
structure ApiRow where
  prize : String
  site_name : String
  entry_fee : Option ℚ
  total_tickets : Option Nat
  tickets_sold : Option Nat
  remaining_tickets : Option Nat
  odds : Option Nat
  url : String
deriving DecidableEq, Repr

/-- Embeds the record assembly of the POST handler (route.ts lines
693-702): remaining tickets via computeRemaining, and odds set to the
total tickets value (null coalesced to null). -/
def mkApiRow (c : ParsedCore) (url siteName : String) : ApiRow :=
  { prize := c.prize
    site_name := siteName
    entry_fee := c.entry_fee
    total_tickets := c.total_tickets
    tickets_sold := c.tickets_sold
    remaining_tickets := computeRemaining c.total_tickets c.tickets_sold
    odds := c.total_tickets
    url := url }

/-- Crawl run statuses written to the run ledger. -/
inductive RunStatus where
  | started
  | ok
  | error
deriving DecidableEq, Repr

/-- Substring occurrence, the JS String includes. -/
def hasPre : List Char → List Char → Bool
  | [], _ => true
  | _ :: _, [] => false
  | p :: ps, t :: ts => (p = t) && hasPre ps ts

/-- Substring search anywhere in the text. -/
def subStrB (pat : List Char) : List Char → Bool
  | [] => pat.isEmpty
  | t :: ts => hasPre pat (t :: ts) || subStrB pat ts

/-- The query filter of the POST handler (route.ts line 690): an empty
query keeps everything, else a case-insensitive substring match of the
query against the prize name. -/
def queryKeeps (query prize : String) : Bool :=
  query.isEmpty || subStrB (query.toLower.toList) (prize.toLower.toList)

/-- One configured site together with its abstracted environment: the run
ledger insert result, the listing fetch (anchor hrefs on success), URL
resolution, the per-URL detail fetch and parse, and the batch upsert
outcome for this site. -/
structure SiteProc where
  name : String
  runId : Option Nat
  listing : Except String (List (Option String))
  resolve : String → String
  detail : String → Except String (Option ParsedCore)
  upsertErr : Option String

/-- What the orchestrator accumulates: the detail URLs newly marked seen
(equivalently the detail fetches issued, in order), the records pushed,
and the run ledger finalization events. -/
structure SiteOut where
  seenX : List String
  rows : List ApiRow
  ledger : List (Nat × RunStatus)
deriving Repr

/-- Rows contributed by one detail URL (route.ts lines 686-715): a fetch
or parse error contributes none, a null parse contributes none, a parsed
page failing the query filter contributes none, else one record. -/
def stepRows (query : String) (s : SiteProc) (url : String) : List ApiRow :=
  match s.detail url with
  | Except.ok (some core) =>
    if queryKeeps query core.prize then [mkApiRow core url s.name] else []
  | _ => []

/-- The detail link loop of the POST handler (route.ts lines 681-722):
skip URLs already seen, mark the URL seen, then fetch and parse it with
per-URL failures swallowed. Returns the newly seen URLs and the records. -/
def linksLoop (query : String) (s : SiteProc) : List String → List String → List String × List ApiRow
  | [], _ => ([], [])
  | url :: rest, seen =>
    if url ∈ seen then linksLoop query s rest seen
    else
      let p := linksLoop query s rest (url :: seen)
      (url :: p.1, stepRows query s url ++ p.2)

/-- Ledger finalization: one update keyed by the run id when the started
insert returned one, none otherwise (route.ts lines 730-750). -/
def finalizeL (runId : Option Nat) (st : RunStatus) : List (Nat × RunStatus) :=
  match runId with
  | some i => [(i, st)]
  | none => []

/-- The run finalization of one site after its link loop (route.ts lines
724-750): ok when nothing was added (the upsert is skipped) or the
upsert succeeded, error when the batch upsert of the added rows failed. -/
def siteLedger (s : SiteProc) (added : Nat) : List (Nat × RunStatus) :=
  if added = 0 then finalizeL s.runId RunStatus.ok
  else match s.upsertErr with
    | some _ => finalizeL s.runId RunStatus.error
    | none => finalizeL s.runId RunStatus.ok

/-- Processing of one site (route.ts lines 654-753): a listing fetch
error finalizes the run as error and contributes nothing else; otherwise
links are discovered, the link loop runs, and the run is finalized from
the number of added rows and the upsert outcome. -/
def processSiteD (query : String) (s : SiteProc) (seen : List String) : SiteOut :=
  match s.listing with
  | Except.error _ => ⟨[], [], finalizeL s.runId RunStatus.error⟩
  | Except.ok hrefs =>
    let links := discoverLinks s.resolve hrefs
    let p := linksLoop query s links seen
    ⟨p.1, p.2, siteLedger s p.2.length⟩

/-- The site loop of the POST handler (route.ts lines 654-777): sites in
order, sharing one seen set across sites; the response body is the rows
component, returned with status 200 whatever the per-site outcomes. -/
def runSites (query : String) : List SiteProc → List String → SiteOut
  | [], _ => ⟨[], [], []⟩
  | s :: rest, seen =>
    let d := processSiteD query s seen
    let r := runSites query rest (seen ++ d.seenX)
    ⟨d.seenX ++ r.seenX, d.rows ++ r.rows, d.ledger ++ r.ledger⟩

/-- Error entries in a ledger. -/
def countErr (l : List (Nat × RunStatus)) : Nat :=
  (l.filter (fun e => e.2 == RunStatus.error)).length

/-- A site whose listing fetch succeeds and whose batch upsert does not
fail. -/
def okSite (s : SiteProc) : Prop :=
  (∃ hr, s.listing = Except.ok hr) ∧ s.upsertErr = none

/-- The remaining count displayed by the results page, read from the odds
field of a record (src/unnamed/part_004 line 158). -/
def uiRemaining (r : ApiRow) : Option Nat := r.odds

/-- URLs of a record list. -/
def urlsOf (rows : List ApiRow) : List String := rows.map ApiRow.url

/-- Page text of the spec scenario for the Rev Comps adapter: an explicit
maximum of 1000 and a sold count of 1050. -/
def text4 : List Char := strL ("PRIZE HAS A MAX OF 1,000 TICKETS. SOLD: 1,050")

/-- Page text with an explicit maximum and an explicit remaining count
but no sold phrase: sold is the one missing quantity. -/
def text5 : List Char := strL ("PRIZE HAS A MAX OF 1,000 TICKETS. REMAINING: 400")

/-- Page text of the derivation scenario: sold 120 and remaining 380,
with no total phrase. -/
def text5w : List Char := strL ("SOLD: 120 REMAINING: 380")

/-- Rev Comps page text with no maximum phrase, a sold count of 500, and
a generic total phrase of 100: the fallback path then pairs a generic
total with the site specific sold. -/
def text2 : List Char := strL ("SOLD: 500 Number of Tickets 100")

/-- Generic page text with a total of 500 and a sold count of 120. -/
def text1w : List Char := strL ("Number of Tickets 500 Sold: 120")

/-- Totals the Rev Comps extractor reads from text2. -/
def cexTotals : Totals := extractTotalsRevComps defTotalPats defSoldPats text2

/-- A parsed detail page carrying the text2 totals. -/
def cexCore : ParsedCore :=
  ⟨"Mega Prize", none, cexTotals.total, cexTotals.sold⟩

/-- A site whose one detail page parses to the text2 totals. -/
def cexSite : SiteProc :=
  ⟨"Rev Comps", some 9, Except.ok [some ("https://rc.example/p1")], id,
   fun _ => Except.ok (some cexCore), none⟩

/-- Structured data block whose product price is the string 0: truthy as
a string, parsed to the number 0. -/
def blocksZero : List (Option Json) :=
  [some (Json.obj [(("@type"), Json.str ("Product")),
                   (("offers"), Json.obj [(("price"), Json.str ("0"))])])]

/-- Structured data block whose product price is the string 4. -/
def blocksFour : List (Option Json) :=
  [some (Json.obj [(("@type"), Json.str ("Product")),
                   (("offers"), Json.obj [(("price"), Json.str ("4"))])])]

/-- The five anchors of the link discovery scenario: five matching
anchors of which two are duplicates, leaving three distinct URLs. -/
def hrefs5 : List (Option String) :=
  [some ("https://x.example/a"), some ("https://x.example/b"),
   some ("https://x.example/a"), some ("https://x.example/c"),
   some ("https://x.example/b")]

/-- A parsed demo detail page with total 500 and sold 120. -/
def demoCore : ParsedCore := ⟨"Demo Prize", some 5, some 500, some 120⟩

/-- A healthy demo site contributing one record. -/
def demoSiteA : SiteProc :=
  ⟨"Site A", some 1, Except.ok [some ("https://a.example/p1")], id,
   fun _ => Except.ok (some demoCore), none⟩

/-- A demo site whose listing fetch throws. -/
def demoSiteErr : SiteProc :=
  ⟨"Site B", some 2, Except.error ("network down"), id,
   fun _ => Except.error ("unreachable"), none⟩

/-- A second healthy demo site contributing one record. -/
def demoSiteC : SiteProc :=
  ⟨"Site C", some 3, Except.ok [some ("https://c.example/p1")], id,
   fun _ => Except.ok (some demoCore), none⟩

/-- A demo site whose batch upsert fails. -/
def demoSiteUp : SiteProc :=
  ⟨"Site D", some 4, Except.ok [some ("https://d.example/p1")], id,
   fun _ => Except.ok (some demoCore), some ("db write failed")⟩

/-- A second demo site listing the same detail URL as the first demo
site, for the cross-site deduplication scenario. -/
def demoSiteA2 : SiteProc :=
  ⟨"Site A2", some 5, Except.ok [some ("https://a.example/p1")], id,
   fun _ => Except.ok (some demoCore), none⟩

/-- computeRemaining on two known counts with sold at most total is the
difference. -/
theorem computeRemaining_both_le (t s : Nat) (h : s ≤ t) :
    computeRemaining (some t) (some s) = some (t - s) := by
  simp only [computeRemaining]
  rw [if_pos (by omega)]
  congr 1
  omega

/-- computeRemaining on two known counts with sold above total is null. -/
theorem computeRemaining_both_gt (t s : Nat) (h : t < s) :
    computeRemaining (some t) (some s) = none := by
  simp only [computeRemaining]
  rw [if_neg (by omega)]

/-- computeRemaining with unknown total is null. -/
theorem computeRemaining_total_none (s : Option Nat) : computeRemaining none s = none := rfl

/-- computeRemaining with unknown sold is null. -/
theorem computeRemaining_sold_none (t : Option Nat) : computeRemaining t none = none := by
  cases t <;> rfl

/-- C1: for every pair the generic extractor reads, when both counts are
known and sold is at most total the extractor keeps both and the computed
remaining equals total minus sold; when the extracted sold exceeds the
extracted total, sold is discarded (null) while total is kept, and the
computed remaining is null. -/
theorem claim1 (tp sp : List Pat) (text : List Char) (t s : Nat)
    (h : rawTotals tp sp text = (some t, some s)) :
    (s ≤ t → extractTotalsGeneric tp sp text = ⟨some t, some s⟩ ∧
      computeRemaining (some t) (some s) = some (t - s)) ∧
    (t < s → extractTotalsGeneric tp sp text = ⟨some t, none⟩ ∧
      (extractTotalsGeneric tp sp text).total = some t ∧
      computeRemaining (extractTotalsGeneric tp sp text).total
        (extractTotalsGeneric tp sp text).sold = none) := by
  have he : extractTotalsGeneric tp sp text =
      if t < s then ⟨some t, none⟩ else ⟨some t, some s⟩ := by
    unfold extractTotalsGeneric
    rw [h]
  constructor
  · intro hle
    rw [he, if_neg (by omega)]
    exact ⟨rfl, computeRemaining_both_le t s hle⟩
  · intro hgt
    rw [he, if_pos hgt]
    exact ⟨rfl, rfl, rfl⟩

/-- Witness for C1 at the generic default patterns on a page with total
500 and sold 120. -/
theorem claim1_witness :
    rawTotals defTotalPats defSoldPats text1w = (some 500, some 120) ∧
    extractTotalsGeneric defTotalPats defSoldPats text1w = ⟨some 500, some 120⟩ ∧
    computeRemaining (some 500) (some 120) = some 380 := by
  have h := claim1 defTotalPats defSoldPats text1w 500 120 (by decide)
  exact ⟨by decide, (h.1 (by omega)).1, (h.1 (by omega)).2⟩

/-- C4: on the scenario page with a maximum of 1000 tickets and 1050
sold, the Rev Comps extractor yields total 1000 and null sold, and the
assembled record has null remaining tickets. -/
theorem claim4 :
    extractTotalsRevComps defTotalPats defSoldPats text4 = ⟨some 1000, none⟩ ∧
    (mkApiRow ⟨"Prize", none, (extractTotalsRevComps defTotalPats defSoldPats text4).total,
        (extractTotalsRevComps defTotalPats defSoldPats text4).sold⟩
      ("https://rc.example/p") ("Rev Comps")).remaining_tickets = none := by
  decide

/-- C5 (amended): when the maximum phrase is absent and both sold and
remaining are read, the Rev Comps extractor derives total as sold plus
remaining and keeps sold; a missing remaining is later derived as total
minus sold by computeRemaining; sold itself is never derived. -/
theorem claim5 (fbT fbS : List Pat) (text : List Char) (sn rn : Nat)
    (h1 : revMaxNum text = none) (h2 : revSoldNum text = some sn)
    (h3 : revRemNum text = some rn) :
    extractTotalsRevComps fbT fbS text = ⟨some (sn + rn), some sn⟩ ∧
    (∀ t s : Nat, s ≤ t → computeRemaining (some t) (some s) = some (t - s)) := by
  constructor
  · unfold extractTotalsRevComps
    rw [h1, h2, h3]
    simp only
    rw [if_neg (by omega)]
  · intro t s hle
    exact computeRemaining_both_le t s hle

/-- Witness for C5 on the page with sold 120 and remaining 380: the
derived total is 500. -/
theorem claim5_witness :
    extractTotalsRevComps defTotalPats defSoldPats text5w = ⟨some 500, some 120⟩ ∧
    computeRemaining (some 500) (some 120) = some 380 := by
  have h := claim5 defTotalPats defSoldPats text5w 120 380 (by decide) (by decide) (by decide)
  exact ⟨h.1, h.2 500 120 (by omega)⟩

/-- Counterexample for C5: on a page where total (1000) and remaining
(400) are extracted and sold is the one missing quantity, the resolver
leaves sold null instead of deriving total minus remaining (600). -/
theorem claim5_cex :
    revMaxNum text5 = some 1000 ∧ revRemNum text5 = some 400 ∧
    extractTotalsRevComps defTotalPats defSoldPats text5 = ⟨some 1000, none⟩ ∧
    ¬ (extractTotalsRevComps defTotalPats defSoldPats text5).sold = some 600 := by
  decide

/-- C3 (amended): when the structured product data of a page carries a
non-zero price, the parser returns exactly that price as the entry fee,
whatever every heuristic price source would produce; a zero structured
price is falsy in the JS or chain and falls through to the heuristics. -/
theorem claim3 (blocks : List (Option Json)) (pp wc1 wc2 p3 p4 : Option ℚ)
    (nm : Option String) (p : ℚ)
    (h : readJsonLdProduct blocks = (nm, some (some p))) (hp : p ≠ 0) :
    feeOf blocks pp wc1 wc2 p3 p4 = some (some p) := by
  have h2 : (readJsonLdProduct blocks).2 = some (some p) := by rw [h]
  unfold feeOf entryFeeChain
  rw [h2]
  simp only [jsOrN, truthyN]
  rw [if_pos (by simp [hp])]

/-- Witness for C3 at a product block carrying the price 4. -/
theorem claim3_witness :
    readJsonLdProduct blocksFour = (none, some (some 4)) ∧
    feeOf blocksFour (some 5) none none none none = some (some 4) := by
  refine ⟨by decide, ?_⟩
  exact claim3 blocksFour (some 5) none none none none none 4 (by decide) (by norm_num)

/-- Counterexample for C3: a product block carrying the price string 0 is
read as the structured price 0, yet the entry fee comes from the
heuristic source (5), not from the structured price. -/
theorem claim3_cex :
    readJsonLdProduct blocksZero = (none, some (some 0)) ∧
    feeOf blocksZero (some 5) none none none none = some (some 5) ∧
    ¬ feeOf blocksZero (some 5) none none none none = some (some 0) := by
  decide

/-- First-occurrence deduplication yields a duplicate-free list avoiding
the initial seen set. -/
theorem dedupFirstGo_spec : ∀ (l seen : List String),
    (dedupFirstGo seen l).Nodup ∧ ∀ x ∈ dedupFirstGo seen l, x ∉ seen := by
  intro l
  induction l with
  | nil => intro seen; simp [dedupFirstGo]
  | cons x xs ih =>
    intro seen
    simp only [dedupFirstGo]
    by_cases hx : x ∈ seen
    · rw [if_pos hx]; exact ih seen
    · rw [if_neg hx]
      obtain ⟨h1, h2⟩ := ih (x :: seen)
      refine ⟨List.nodup_cons.mpr ⟨fun hm => (h2 x hm) (List.mem_cons_self x seen), h1⟩, ?_⟩
      intro y hy
      rcases List.mem_cons.mp hy with rfl | hy2
      · exact hx
      · intro hys
        exact (h2 y hy2) (List.mem_cons_of_mem x hys)

/-- First-occurrence deduplication only keeps elements of the input. -/
theorem dedupFirstGo_sub : ∀ (l seen : List String), dedupFirstGo seen l ⊆ l := by
  intro l
  induction l with
  | nil => intro seen; simp [dedupFirstGo]
  | cons x xs ih =>
    intro seen y hy
    simp only [dedupFirstGo] at hy
    by_cases hx : x ∈ seen
    · rw [if_pos hx] at hy
      exact List.mem_cons_of_mem x (ih seen hy)
    · rw [if_neg hx] at hy
      rcases List.mem_cons.mp hy with rfl | hy2
      · exact List.mem_cons_self y xs
      · exact List.mem_cons_of_mem x (ih (x :: seen) hy2)

/-- C6 (amended): link discovery deduplicates the truthy anchor targets
(first occurrence order), truncates to the cap of 60, and applies no
allow or deny filtering; every returned URL is the resolution of some
anchor href; on the scenario page with five matching anchors of which
two are duplicates, it returns the three distinct URLs. -/
theorem claim6 (resolve : String → String) (hrefs : List (Option String)) :
    (discoverLinks resolve hrefs).Nodup ∧
    (discoverLinks resolve hrefs).length ≤ 60 ∧
    (∀ u ∈ discoverLinks resolve hrefs,
      ∃ h, some h ∈ hrefs ∧ ¬ h.isEmpty ∧ resolve h = u) ∧
    discoverLinks id hrefs5 =
      ["https://x.example/a", "https://x.example/b", "https://x.example/c"] := by
  refine ⟨?_, ?_, ?_, by decide⟩
  · exact ((dedupFirstGo_spec _ []).1).sublist (List.take_sublist 60 _)
  · exact List.length_take_le 60 _
  · intro u hu
    have h1 : u ∈ dedupFirst ((hrefs.filterMap truthyHref).map resolve) :=
      List.mem_of_mem_take hu
    have h2 := dedupFirstGo_sub _ [] h1
    obtain ⟨h0, hm, rfl⟩ := List.mem_map.mp h2
    obtain ⟨oh, hoh, hfm⟩ := List.mem_filterMap.mp hm
    cases oh with
    | none => simp [truthyHref] at hfm
    | some s =>
      by_cases hs : s.isEmpty
      · simp [truthyHref, hs] at hfm
      · rw [truthyHref, if_neg hs] at hfm
        injection hfm with hfm2
        subst hfm2
        exact ⟨s, hoh, hs, rfl⟩

/-- Witness for C6: the first scenario URL is returned and originates in
an anchor of the listing. -/
theorem claim6_witness :
    ("https://x.example/a") ∈ discoverLinks id hrefs5 ∧
    (∃ h, some h ∈ hrefs5 ∧ ¬ h.isEmpty ∧ id h = ("https://x.example/a")) := by
  refine ⟨by decide, ?_⟩
  exact (claim6 id hrefs5).2.2.1 _ (by decide)

/-- Counterexample for C6: the scenario of five anchors with two
duplicates yields three URLs, not the two the claim expects after a deny
pattern exclusion; the URL the deny pattern was meant to drop is present. -/
theorem claim6_cex :
    (discoverLinks id hrefs5).length = 3 ∧
    ("https://x.example/c") ∈ discoverLinks id hrefs5 ∧
    ¬ (discoverLinks id hrefs5).length = 2 := by
  decide

/-- Every row a single detail URL contributes is the record assembly
applied at that URL. -/
theorem stepRows_spec (q : String) (s : SiteProc) (url : String) :
    ∀ r ∈ stepRows q s url, ∃ c, r = mkApiRow c url s.name := by
  intro r hr
  unfold stepRows at hr
  split at hr
  · split at hr
    · rcases List.mem_singleton.mp hr with rfl
      exact ⟨_, rfl⟩
    · simp at hr
  · simp at hr

/-- The detail link loop: the newly seen URLs are duplicate free and
disjoint from the incoming seen set; every produced record is a record
assembly at its own URL, that URL is newly seen, and record URLs are
duplicate free. -/
theorem linksLoop_spec (q : String) (s : SiteProc) :
    ∀ (links seen : List String),
    (linksLoop q s links seen).1.Nodup ∧
    (∀ u ∈ (linksLoop q s links seen).1, u ∉ seen) ∧
    (∀ r ∈ (linksLoop q s links seen).2,
      (∃ c, r = mkApiRow c r.url s.name) ∧ r.url ∈ (linksLoop q s links seen).1) ∧
    (urlsOf (linksLoop q s links seen).2).Nodup := by
  intro links
  induction links with
  | nil =>
    intro seen
    simp [linksLoop, urlsOf]
  | cons url rest ih =>
    intro seen
    by_cases hu : url ∈ seen
    · simp only [linksLoop, if_pos hu]
      exact ih seen
    · obtain ⟨ih1, ih2, ih3, ih4⟩ := ih (url :: seen)
      simp only [linksLoop, if_neg hu]
      have hstep : ∀ r ∈ stepRows q s url, r.url = url := by
        intro r hr
        obtain ⟨c, rfl⟩ := stepRows_spec q s url r hr
        rfl
      refine ⟨?_, ?_, ?_, ?_⟩
      · refine List.nodup_cons.mpr ⟨fun hm => ih2 url hm (List.mem_cons_self url seen), ih1⟩
      · intro u hum
        rcases List.mem_cons.mp hum with rfl | h2
        · exact hu
        · exact fun hs => ih2 u h2 (List.mem_cons_of_mem url hs)
      · intro r hr
        rcases List.mem_append.mp hr with h | h
        · obtain ⟨c, rfl⟩ := stepRows_spec q s url r h
          exact ⟨⟨c, rfl⟩, List.mem_cons_self _ _⟩
        · obtain ⟨he, hm⟩ := ih3 r h
          exact ⟨he, List.mem_cons_of_mem url hm⟩
      · rw [urlsOf, List.map_append]
        refine List.Nodup.append ?_ ih4 ?_
        · unfold stepRows
          split
          · split
            · simp
            · simp
          · simp
        · intro a ha har
          obtain ⟨r1, hr1, hre⟩ := List.mem_map.mp ha
          obtain ⟨r2, hr2, hre2⟩ := List.mem_map.mp har
          have h1 : a = url := by rw [← hre]; exact hstep r1 hr1
          have h2 : r2.url ∈ (linksLoop q s rest (url :: seen)).1 := (ih3 r2 hr2).2
          rw [hre2] at h2
          rw [h1] at h2
          exact ih2 url h2 (List.mem_cons_self url seen)

/-- Site processing preserves the link loop invariants: seen URLs are
fresh and duplicate free, rows are record assemblies at fresh URLs. -/
theorem processSiteD_spec (q : String) (s : SiteProc) (seen : List String) :
    (processSiteD q s seen).seenX.Nodup ∧
    (∀ u ∈ (processSiteD q s seen).seenX, u ∉ seen) ∧
    (∀ r ∈ (processSiteD q s seen).rows,
      (∃ c, r = mkApiRow c r.url s.name) ∧ r.url ∈ (processSiteD q s seen).seenX) ∧
    (urlsOf (processSiteD q s seen).rows).Nodup := by
  unfold processSiteD
  cases hl : s.listing with
  | error e => simp [urlsOf]
  | ok hrefs =>
    obtain ⟨h1, h2, h3, h4⟩ := linksLoop_spec q s (discoverLinks s.resolve hrefs) seen
    exact ⟨h1, h2, h3, h4⟩

/-- The site loop invariants: across sites, the seen log is duplicate
free and fresh, every returned row is a record assembly at a URL of the
seen log, and row URLs are duplicate free. -/
theorem runSites_spec (q : String) :
    ∀ (sites : List SiteProc) (seen : List String),
    (runSites q sites seen).seenX.Nodup ∧
    (∀ u ∈ (runSites q sites seen).seenX, u ∉ seen) ∧
    (∀ r ∈ (runSites q sites seen).rows,
      (∃ c n, r = mkApiRow c r.url n) ∧ r.url ∈ (runSites q sites seen).seenX) ∧
    (urlsOf (runSites q sites seen).rows).Nodup := by
  intro sites
  induction sites with
  | nil =>
    intro seen
    simp [runSites, urlsOf]
  | cons s rest ih =>
    intro seen
    obtain ⟨d1, d2, d3, d4⟩ := processSiteD_spec q s seen
    obtain ⟨r1, r2, r3, r4⟩ := ih (seen ++ (processSiteD q s seen).seenX)
    simp only [runSites]
    refine ⟨?_, ?_, ?_, ?_⟩
    · refine List.Nodup.append d1 r1 ?_
      intro a ha har
      exact r2 a har (List.mem_append.mpr (Or.inr ha))
    · intro u hum
      rcases List.mem_append.mp hum with h | h
      · exact d2 u h
      · exact fun hs => r2 u h (List.mem_append.mpr (Or.inl hs))
    · intro r hr
      rcases List.mem_append.mp hr with h | h
      · obtain ⟨⟨c, hc⟩, hurl⟩ := d3 r h
        exact ⟨⟨c, s.name, hc⟩, List.mem_append.mpr (Or.inl hurl)⟩
      · obtain ⟨he, hurl⟩ := r3 r h
        exact ⟨he, List.mem_append.mpr (Or.inr hurl)⟩
    · rw [urlsOf, List.map_append]
      refine List.Nodup.append ?_ ?_ ?_
      · rw [urlsOf] at d4; exact d4
      · rw [urlsOf] at r4; exact r4
      · intro a ha har
        obtain ⟨ra, hra, hrea⟩ := List.mem_map.mp ha
        obtain ⟨rb, hrb, hreb⟩ := List.mem_map.mp har
        have hb : a ∈ (runSites q rest (seen ++ (processSiteD q s seen).seenX)).seenX := by
          rw [← hreb]; exact (r3 rb hrb).2
        have haa : a ∈ (processSiteD q s seen).seenX := by
          rw [← hrea]; exact (d3 ra hra).2
        exact r2 a hb (List.mem_append.mpr (Or.inr haa))

/-- C2 (amended): in every record the orchestrator builds, remaining
tickets is total minus sold when both are known and sold is at most
total; when both are known and sold exceeds total (reachable through the
Rev Comps fallback), remaining is null rather than zero; and remaining is
null whenever total is unknown. -/
theorem claim2 (q : String) (sites : List SiteProc) :
    ∀ r ∈ (runSites q sites []).rows,
      (∀ t s : Nat, r.total_tickets = some t → r.tickets_sold = some s →
        (s ≤ t → r.remaining_tickets = some (t - s)) ∧
        (t < s → r.remaining_tickets = none)) ∧
      (r.total_tickets = none → r.remaining_tickets = none) := by
  intro r hr
  obtain ⟨⟨c, n, hc⟩, _⟩ := (runSites_spec q sites []).2.2.1 r hr
  have hrem : r.remaining_tickets = computeRemaining r.total_tickets r.tickets_sold := by
    rw [hc]; rfl
  refine ⟨?_, ?_⟩
  · intro t s ht hs
    rw [hrem, ht, hs]
    exact ⟨fun hle => computeRemaining_both_le t s hle,
           fun hgt => computeRemaining_both_gt t s hgt⟩
  · intro ht
    rw [hrem, ht]
    exact computeRemaining_total_none _

/-- Witness for C2 on the demo record with total 500 and sold 120. -/
theorem claim2_witness :
    mkApiRow demoCore ("https://a.example/p1") ("Site A") ∈
      (runSites ("") [demoSiteA] []).rows ∧
    (mkApiRow demoCore ("https://a.example/p1") ("Site A")).remaining_tickets = some 380 := by
  have hm : mkApiRow demoCore ("https://a.example/p1") ("Site A") ∈
      (runSites ("") [demoSiteA] []).rows := by decide
  have h := claim2 ("") [demoSiteA] _ hm
  refine ⟨hm, ?_⟩
  have h2 := (h.1 500 120 (by decide) (by decide)).1 (by omega)
  simpa using h2

/-- Counterexample for C2: a Rev Comps page whose generic fallback total
is 100 while the site specific sold is 500 produces a record with both
counts known, sold above total, and a null remaining, where the claim
demands the clamped value zero. -/
theorem claim2_cex :
    cexTotals = ⟨some 100, some 500⟩ ∧
    (runSites ("") [cexSite] []).rows.map (fun r => r.remaining_tickets) = [none] ∧
    ¬ (runSites ("") [cexSite] []).rows.map (fun r => r.remaining_tickets) = [some 0] := by
  decide

/-- C10: every record the orchestrator returns carries its total tickets
value in the odds field (null when total is unknown), and the results
page reads exactly that field as the remaining count. -/
theorem claim10 (q : String) (sites : List SiteProc) :
    ∀ r ∈ (runSites q sites []).rows,
      r.odds = r.total_tickets ∧ uiRemaining r = r.total_tickets ∧
      (r.total_tickets = none → r.odds = none) := by
  intro r hr
  obtain ⟨⟨c, n, hc⟩, _⟩ := (runSites_spec q sites []).2.2.1 r hr
  have h1 : r.odds = r.total_tickets := by rw [hc]; rfl
  refine ⟨h1, ?_, fun ht => by rw [h1, ht]⟩
  rw [uiRemaining, h1]

/-- Witness for C10 on the demo record: odds is the total 500, not the
remaining 380. -/
theorem claim10_witness :
    mkApiRow demoCore ("https://a.example/p1") ("Site A") ∈
      (runSites ("") [demoSiteA] []).rows ∧
    (mkApiRow demoCore ("https://a.example/p1") ("Site A")).odds = some 500 ∧
    uiRemaining (mkApiRow demoCore ("https://a.example/p1") ("Site A")) = some 500 := by
  have hm : mkApiRow demoCore ("https://a.example/p1") ("Site A") ∈
      (runSites ("") [demoSiteA] []).rows := by decide
  have h := claim10 ("") [demoSiteA] _ hm
  exact ⟨hm, by rw [h.1]; rfl, by rw [h.2.1]; rfl⟩

/-- C9: within one invocation every detail URL is fetched at most once
(the fetch log is duplicate free) and the output holds at most one record
per URL; every record URL appears in the fetch log. -/
theorem claim9 (q : String) (sites : List SiteProc) :
    (runSites q sites []).seenX.Nodup ∧
    (urlsOf (runSites q sites []).rows).Nodup ∧
    (∀ r ∈ (runSites q sites []).rows, r.url ∈ (runSites q sites []).seenX) := by
  obtain ⟨h1, _, h3, h4⟩ := runSites_spec q sites []
  exact ⟨h1, h4, fun r hr => (h3 r hr).2⟩

/-- Witness for C9: two sites listing the same URL lead to a single fetch
and a single record. -/
theorem claim9_witness :
    (runSites ("") [demoSiteA, demoSiteA2] []).seenX.Nodup ∧
    (urlsOf (runSites ("") [demoSiteA, demoSiteA2] []).rows).Nodup ∧
    (runSites ("") [demoSiteA, demoSiteA2] []).seenX = [("https://a.example/p1")] ∧
    (urlsOf (runSites ("") [demoSiteA, demoSiteA2] []).rows) = [("https://a.example/p1")] := by
  have h := claim9 ("") [demoSiteA, demoSiteA2]
  exact ⟨h.1, h.2.1, by decide, by decide⟩

/-- Splitting the site loop over an append: the second segment runs with
the seen set extended by the first segment. -/
theorem runSites_append (q : String) : ∀ (a b : List SiteProc) (seen : List String),
    runSites q (a ++ b) seen =
      ⟨(runSites q a seen).seenX ++
         (runSites q b (seen ++ (runSites q a seen).seenX)).seenX,
       (runSites q a seen).rows ++
         (runSites q b (seen ++ (runSites q a seen).seenX)).rows,
       (runSites q a seen).ledger ++
         (runSites q b (seen ++ (runSites q a seen).seenX)).ledger⟩ := by
  intro a
  induction a with
  | nil =>
    intro b seen
    simp [runSites]
  | cons s rest ih =>
    intro b seen
    simp only [List.cons_append, runSites]
    simp [List.append_assoc]
    rw [ih b (seen ++ (processSiteD q s seen).seenX)]
    simp [List.append_assoc]

/-- A site whose listing fetch fails contributes nothing but an error
finalization. -/
theorem processSiteD_listErr (q : String) (s : SiteProc) (seen : List String) (e : String)
    (hl : s.listing = Except.error e) :
    processSiteD q s seen = ⟨[], [], finalizeL s.runId RunStatus.error⟩ := by
  unfold processSiteD
  rw [hl]

/-- The finalization of a site whose batch upsert succeeds is ok. -/
theorem siteLedger_ok (s : SiteProc) (n : Nat) (hu : s.upsertErr = none) :
    siteLedger s n = finalizeL s.runId RunStatus.ok := by
  unfold siteLedger
  split
  · rfl
  · rw [hu]

/-- The finalization of a site that added rows and whose batch upsert
fails is error. -/
theorem siteLedger_err (s : SiteProc) (n : Nat) (m : String)
    (hu : s.upsertErr = some m) (hn : n ≠ 0) :
    siteLedger s n = finalizeL s.runId RunStatus.error := by
  unfold siteLedger
  rw [if_neg hn, hu]

/-- Site processing on a successful listing fetch is the link loop with
a finalization from the added-row count. -/
theorem processSiteD_eq_ok (q : String) (s : SiteProc) (seen : List String)
    (hr : List (Option String)) (hle : s.listing = Except.ok hr) :
    processSiteD q s seen =
      ⟨(linksLoop q s (discoverLinks s.resolve hr) seen).1,
       (linksLoop q s (discoverLinks s.resolve hr) seen).2,
       siteLedger s (linksLoop q s (discoverLinks s.resolve hr) seen).2.length⟩ := by
  unfold processSiteD
  rw [hle]

/-- A site whose listing fetch and batch upsert both succeed finalizes its
run ok. -/
theorem processSiteD_ok_ledger (q : String) (s : SiteProc) (seen : List String)
    (hl : ∃ hr, s.listing = Except.ok hr) (hu : s.upsertErr = none) :
    (processSiteD q s seen).ledger = finalizeL s.runId RunStatus.ok := by
  obtain ⟨hr, hle⟩ := hl
  rw [processSiteD_eq_ok q s seen hr hle]
  exact siteLedger_ok s _ hu

/-- A site whose listing succeeds, whose link loop produced at least one
record, and whose batch upsert fails finalizes its run as error. -/
theorem processSiteD_upErr (q : String) (s : SiteProc) (seen : List String) (m : String)
    (hl : ∃ hr, s.listing = Except.ok hr) (hu : s.upsertErr = some m)
    (hnz : (processSiteD q s seen).rows ≠ []) :
    (processSiteD q s seen).ledger = finalizeL s.runId RunStatus.error := by
  obtain ⟨hr, hle⟩ := hl
  rw [processSiteD_eq_ok q s seen hr hle] at hnz ⊢
  have hn : (linksLoop q s (discoverLinks s.resolve hr) seen).2.length ≠ 0 := by
    intro h0
    exact hnz (List.length_eq_zero.mp h0)
  exact siteLedger_err s _ m hu hn

/-- Error count distributes over ledger concatenation. -/
theorem countErr_append (a b : List (Nat × RunStatus)) :
    countErr (a ++ b) = countErr a + countErr b := by
  simp [countErr, List.filter_append]

/-- An ok finalization holds no error entry. -/
theorem countErr_fin_ok (rid : Option Nat) : countErr (finalizeL rid RunStatus.ok) = 0 := by
  cases rid <;> rfl

/-- An error finalization with a run id holds exactly one error entry. -/
theorem countErr_fin_err (i : Nat) : countErr (finalizeL (some i) RunStatus.error) = 1 := rfl

/-- An error entry in front adds one to the error count. -/
theorem countErr_cons_err (i : Nat) (l : List (Nat × RunStatus)) :
    countErr ((i, RunStatus.error) :: l) = countErr l + 1 := by
  simp [countErr, List.filter_cons]

/-- A run over sites that all fetch and upsert fine records no error. -/
theorem runSites_okAll (q : String) : ∀ (l : List SiteProc) (seen : List String),
    (∀ s ∈ l, okSite s) → countErr (runSites q l seen).ledger = 0 := by
  intro l
  induction l with
  | nil => intro seen h; rfl
  | cons s rest ih =>
    intro seen h
    have hs := h s (List.mem_cons_self s rest)
    have hd := processSiteD_ok_ledger q s seen hs.1 hs.2
    have hrest := ih (seen ++ (processSiteD q s seen).seenX)
      (fun x hx => h x (List.mem_cons_of_mem s hx))
    show countErr ((processSiteD q s seen).ledger ++ _) = 0
    rw [countErr_append, hd, countErr_fin_ok, hrest]

/-- In a run over healthy sites, every site whose run insert returned an
id gets an ok finalization. -/
theorem runSites_ok_mem (q : String) : ∀ (l : List SiteProc) (seen : List String)
    (s : SiteProc) (i : Nat),
    (∀ x ∈ l, okSite x) → s ∈ l → s.runId = some i →
    (i, RunStatus.ok) ∈ (runSites q l seen).ledger := by
  intro l
  induction l with
  | nil => intro seen s i h hm; simp at hm
  | cons x rest ih =>
    intro seen s i h hm hid
    show (i, RunStatus.ok) ∈ (processSiteD q x seen).ledger ++ _
    rcases List.mem_cons.mp hm with rfl | hm2
    · have hx := h s (List.mem_cons_self s rest)
      have hd := processSiteD_ok_ledger q s seen hx.1 hx.2
      rw [hd, hid]
      exact List.mem_append.mpr (Or.inl (List.mem_singleton.mpr rfl))
    · exact List.mem_append.mpr (Or.inr
        (ih (seen ++ (processSiteD q x seen).seenX) s i
          (fun y hy => h y (List.mem_cons_of_mem x hy)) hm2 hid))

/-- A listing-error site at the head of the loop only prepends its error
finalization. -/
theorem runSites_errHead (q : String) (f : SiteProc) (post : List SiteProc)
    (sn : List String) (rid : Nat) (e : String)
    (hf : f.listing = Except.error e) (hid : f.runId = some rid) :
    runSites q (f :: post) sn =
      ⟨(runSites q post sn).seenX, (runSites q post sn).rows,
       (rid, RunStatus.error) :: (runSites q post sn).ledger⟩ := by
  have hfd : processSiteD q f sn = ⟨[], [], [(rid, RunStatus.error)]⟩ := by
    rw [processSiteD_listErr q f sn e hf, hid]
    rfl
  simp only [runSites, hfd]
  simp

/-- C7: when one site of several throws on its listing fetch, the records
returned are exactly those of a run without that site, and exactly one
crawl run, keyed by the run id of the failed site, is finalized with
status error. -/
theorem claim7 (q : String) (pre post : List SiteProc) (f : SiteProc) (rid : Nat) (e : String)
    (hpre : ∀ s ∈ pre, okSite s) (hpost : ∀ s ∈ post, okSite s)
    (hf : f.listing = Except.error e) (hid : f.runId = some rid) :
    (runSites q (pre ++ f :: post) []).rows = (runSites q (pre ++ post) []).rows ∧
    countErr (runSites q (pre ++ f :: post) []).ledger = 1 ∧
    (rid, RunStatus.error) ∈ (runSites q (pre ++ f :: post) []).ledger := by
  have hA := runSites_append q pre (f :: post) ([] : List String)
  have hB := runSites_append q pre post ([] : List String)
  refine ⟨?_, ?_, ?_⟩
  · rw [hA, hB]
    dsimp only
    rw [runSites_errHead q f post _ rid e hf hid]
  · rw [hA]
    dsimp only
    rw [countErr_append, runSites_okAll q pre [] hpre,
      runSites_errHead q f post _ rid e hf hid]
    dsimp only
    rw [countErr_cons_err,
      runSites_okAll q post ([] ++ (runSites q pre ([] : List String)).seenX) hpost]
  · rw [hA]
    dsimp only
    rw [runSites_errHead q f post _ rid e hf hid]
    dsimp only
    exact List.mem_append.mpr (Or.inr (List.mem_cons_self _ _))

/-- Witness for C7 on three demo sites, the middle one failing its
listing fetch. -/
theorem claim7_witness :
    (runSites ("") [demoSiteA, demoSiteErr, demoSiteC] []).rows =
      (runSites ("") [demoSiteA, demoSiteC] []).rows ∧
    countErr (runSites ("") [demoSiteA, demoSiteErr, demoSiteC] []).ledger = 1 ∧
    (2, RunStatus.error) ∈ (runSites ("") [demoSiteA, demoSiteErr, demoSiteC] []).ledger := by
  have h := claim7 ("") [demoSiteA] [demoSiteC] demoSiteErr 2 ("network down")
    (by intro s hs; rcases List.mem_singleton.mp hs with rfl
        exact ⟨⟨[some ("https://a.example/p1")], rfl⟩, rfl⟩)
    (by intro s hs; rcases List.mem_singleton.mp hs with rfl
        exact ⟨⟨[some ("https://c.example/p1")], rfl⟩, rfl⟩)
    rfl rfl
  exact h

/-- C8: when the batch upsert of one site fails, the crawl run of that
site is finalized as error, the other sites still finalize ok (exactly
one error in the ledger), and the response still carries the rows of
every site, including those after the failed one. -/
theorem claim8 (q : String) (pre post : List SiteProc) (f : SiteProc) (rid : Nat) (m : String)
    (hr0 : List (Option String))
    (hpre : ∀ s ∈ pre, okSite s) (hpost : ∀ s ∈ post, okSite s)
    (hid : f.runId = some rid) (hu : f.upsertErr = some m) (hl : f.listing = Except.ok hr0)
    (hnz : (processSiteD q f (runSites q pre ([] : List String)).seenX).rows ≠ []) :
    (rid, RunStatus.error) ∈ (runSites q (pre ++ f :: post) []).ledger ∧
    countErr (runSites q (pre ++ f :: post) []).ledger = 1 ∧
    (∀ s ∈ post, ∀ i, s.runId = some i →
      (i, RunStatus.ok) ∈ (runSites q (pre ++ f :: post) []).ledger) ∧
    (runSites q (pre ++ f :: post) []).rows =
      (runSites q pre []).rows ++
      ((processSiteD q f (runSites q pre []).seenX).rows ++
       (runSites q post ((runSites q pre []).seenX ++
         (processSiteD q f (runSites q pre []).seenX).seenX)).rows) := by
  have hA := runSites_append q pre (f :: post) ([] : List String)
  have hdl : (processSiteD q f (runSites q pre ([] : List String)).seenX).ledger
      = [(rid, RunStatus.error)] := by
    rw [processSiteD_upErr q f _ m ⟨hr0, hl⟩ hu hnz, hid]
    rfl
  refine ⟨?_, ?_, ?_, ?_⟩
  · rw [hA]
    dsimp only
    simp only [runSites, List.nil_append]
    rw [hdl]
    exact List.mem_append.mpr (Or.inr (List.mem_append.mpr
      (Or.inl (List.mem_singleton.mpr rfl))))
  · rw [hA]
    dsimp only
    simp only [runSites, List.nil_append]
    rw [countErr_append, countErr_append, hdl, runSites_okAll q pre [] hpre,
      runSites_okAll q post ((runSites q pre ([] : List String)).seenX ++
        (processSiteD q f (runSites q pre ([] : List String)).seenX).seenX) hpost]
    rfl
  · intro s hs i hsid
    rw [hA]
    dsimp only
    simp only [runSites, List.nil_append]
    exact List.mem_append.mpr (Or.inr (List.mem_append.mpr (Or.inr
      (runSites_ok_mem q post _ s i hpost hs hsid))))
  · rw [hA]
    dsimp only
    simp only [runSites, List.nil_append]

/-- Witness for C8 on three demo sites, the middle one failing its batch
upsert while contributing one record. -/
theorem claim8_witness :
    (4, RunStatus.error) ∈ (runSites ("") [demoSiteA, demoSiteUp, demoSiteC] []).ledger ∧
    countErr (runSites ("") [demoSiteA, demoSiteUp, demoSiteC] []).ledger = 1 ∧
    (3, RunStatus.ok) ∈ (runSites ("") [demoSiteA, demoSiteUp, demoSiteC] []).ledger := by
  have h := claim8 ("") [demoSiteA] [demoSiteC] demoSiteUp 4 ("db write failed")
    [some ("https://d.example/p1")]
    (by intro s hs; rcases List.mem_singleton.mp hs with rfl
        exact ⟨⟨[some ("https://a.example/p1")], rfl⟩, rfl⟩)
    (by intro s hs; rcases List.mem_singleton.mp hs with rfl
        exact ⟨⟨[some ("https://c.example/p1")], rfl⟩, rfl⟩)
    rfl rfl rfl (by decide)
  exact ⟨h.1, h.2.1, h.2.2.1 demoSiteC (List.mem_singleton.mpr rfl) 3 rfl⟩

end PW







